import Mathlib

set_option maxRecDepth 8000

/-!
Shallow embedding of the FinanceLaborUnion payment subsystem:
the two ECPay CheckMacValue signers, callback verification, the batch
email sender, the Google-Sheets payment record store, and the merchant
trade number generator, each translated from the TypeScript source.
-/

/-- JS scalar values as they occur in the parameter records fed to the
ECPay signers.  Template-literal interpolation of a JS number yields its
decimal rendering, so numeric fields are modelled by the string they
render to. -/
inductive JSVal where
  | undef
  | null
  | str (s : String)
deriving DecidableEq, Repr

/-- Template-literal rendering of a JS value, as in the interpolation
of the query string. -/
def JSVal.render : JSVal → String
  | .undef => "undefined"
  | .null => "null"
  | .str s => s

/-- Lowercase hexadecimal digit, as produced by Node's hex digest. -/
def hexDigitLower (n : Nat) : Char :=
  if n < 10 then Char.ofNat (48 + n) else Char.ofNat (87 + n)

/-- Uppercase hexadecimal digit, as produced by toString(16).toUpperCase(). -/
def hexDigitUpper (n : Nat) : Char :=
  if n < 10 then Char.ofNat (48 + n) else Char.ofNat (55 + n)

/-- UTF-8 encoding of one character's code point. -/
def utf8BytesOfChar (c : Char) : List Nat :=
  let n := c.toNat
  if n < 128 then [n]
  else if n < 2048 then [192 + n / 64, 128 + n % 64]
  else if n < 65536 then [224 + n / 4096, 128 + n / 64 % 64, 128 + n % 64]
  else [240 + n / 262144, 128 + n / 4096 % 64, 128 + n / 64 % 64, 128 + n % 64]

/-- UTF-8 encoding of a character sequence; this is the byte stream that
Node's hash.update consumes for a JS string. -/
def utf8Bytes (s : List Char) : List Nat := s.flatMap utf8BytesOfChar

/-- Characters that JS encodeURIComponent leaves unescaped:
A-Z, a-z, 0-9 and the marks - _ . ! ~ * apostrophe ( ). -/
def uriUnescaped (c : Char) : Bool :=
  let n := c.toNat
  (decide (65 ≤ n) && decide (n ≤ 90)) || (decide (97 ≤ n) && decide (n ≤ 122)) ||
  (decide (48 ≤ n) && decide (n ≤ 57)) ||
  [45, 95, 46, 33, 126, 42, 39, 40, 41].contains n

/-- One percent-escaped byte with uppercase hex digits, the form
encodeURIComponent emits and the form the manual re-encoding of
the special characters emits. -/
def pctEncodeByte (b : Nat) : List Char :=
  ['%', hexDigitUpper (b / 16 % 16), hexDigitUpper (b % 16)]

/-- Model of JS encodeURIComponent over the characters of a string:
unescaped characters pass through, everything else becomes the
percent-escape of its UTF-8 bytes. -/
def encodeURIComponentChars (s : List Char) : List Char :=
  s.flatMap fun c =>
    if uriUnescaped c then [c] else (utf8BytesOfChar c).flatMap pctEncodeByte

/-- String.prototype.toLowerCase restricted to ASCII, which is all the
percent-encoded string can contain. -/
def asciiLower (c : Char) : Char :=
  if 65 ≤ c.toNat ∧ c.toNat ≤ 90 then Char.ofNat (c.toNat + 32) else c

/-- String.prototype.toUpperCase restricted to ASCII, applied to the
lowercase hex digest. -/
def asciiUpper (c : Char) : Char :=
  if 97 ≤ c.toNat ∧ c.toNat ≤ 122 then Char.ofNat (c.toNat - 32) else c

/-- Global replacement of a fixed three-character pattern by one
character, left to right and non-overlapping, as
String.prototype.replace with a /g pattern performs for the
percent-escape restorations. -/
def replace3 (a b c r : Char) : List Char → List Char
  | x :: y :: z :: rest =>
    if x = a ∧ y = b ∧ z = c then r :: replace3 a b c r rest
    else x :: replace3 a b c r (y :: z :: rest)
  | l => l

/-- The replace of the character class ! apostrophe ( ) * by the
uppercase percent-escape of the character's code, the final encoding
step of generateCheckMacValue. -/
def reEncodeSpecials (s : List Char) : List Char :=
  s.flatMap fun c =>
    if [33, 39, 40, 41, 42].contains c.toNat then pctEncodeByte c.toNat else [c]

/-- The eight 32-bit working variables of SHA-256 (FIPS 180-4). -/
structure Sha2State where
  a : Nat
  b : Nat
  c : Nat
  d : Nat
  e : Nat
  f : Nat
  g : Nat
  h : Nat
deriving DecidableEq, Repr

/-- SHA-256 initial hash value. -/
def sha2Init : Sha2State :=
  ⟨1779033703, 3144134277, 1013904242,
   2773480762, 1359893119, 2600822924,
   528734635, 1541459225⟩

/-- SHA-256 round constants. -/
def sha2K : List Nat :=
  [1116352408, 1899447441, 3049323471, 3921009573,
   961987163, 1508970993, 2453635748, 2870763221,
   3624381080, 310598401, 607225278, 1426881987,
   1925078388, 2162078206, 2614888103, 3248222580,
   3835390401, 4022224774, 264347078, 604807628,
   770255983, 1249150122, 1555081692, 1996064986,
   2554220882, 2821834349, 2952996808, 3210313671,
   3336571891, 3584528711, 113926993, 338241895,
   666307205, 773529912, 1294757372, 1396182291,
   1695183700, 1986661051, 2177026350, 2456956037,
   2730485921, 2820302411, 3259730800, 3345764771,
   3516065817, 3600352804, 4094571909, 275423344,
   430227734, 506948616, 659060556, 883997877,
   958139571, 1322822218, 1537002063, 1747873779,
   1955562222, 2024104815, 2227730452, 2361852424,
   2428436474, 2756734187, 3204031479, 3329325298]

/-- Rotate a 32-bit word right by n bits. -/
def rotr32 (n w : Nat) : Nat := ((w >>> n) ||| (w <<< (32 - n))) % 4294967296

/-- SHA-256 message-schedule sigma0. -/
def sha2s0 (x : Nat) : Nat := rotr32 7 x ^^^ rotr32 18 x ^^^ (x >>> 3)

/-- SHA-256 message-schedule sigma1. -/
def sha2s1 (x : Nat) : Nat := rotr32 17 x ^^^ rotr32 19 x ^^^ (x >>> 10)

/-- SHA-256 compression Sigma0. -/
def sha2S0 (x : Nat) : Nat := rotr32 2 x ^^^ rotr32 13 x ^^^ rotr32 22 x

/-- SHA-256 compression Sigma1. -/
def sha2S1 (x : Nat) : Nat := rotr32 6 x ^^^ rotr32 11 x ^^^ rotr32 25 x

/-- One SHA-256 compression round for a constant/schedule-word pair. -/
def sha2Round (s : Sha2State) (kw : Nat × Nat) : Sha2State :=
  let ch := (s.e &&& s.f) ^^^ ((s.e ^^^ 4294967295) &&& s.g)
  let maj := (s.a &&& s.b) ^^^ (s.a &&& s.c) ^^^ (s.b &&& s.c)
  let t1 := (s.h + sha2S1 s.e + ch + kw.1 + kw.2) % 4294967296
  let t2 := (sha2S0 s.a + maj) % 4294967296
  ⟨(t1 + t2) % 4294967296, s.a, s.b, s.c, (s.d + t1) % 4294967296, s.e, s.f, s.g⟩

/-- Extend the sixteen block words by n further schedule words. -/
def sha2Extend : Nat → List Nat → List Nat
  | 0, ws => ws
  | n + 1, ws =>
    let m := ws.length
    let w := (sha2s1 (ws.getD (m - 2) 0) + ws.getD (m - 7) 0 +
              sha2s0 (ws.getD (m - 15) 0) + ws.getD (m - 16) 0) % 4294967296
    sha2Extend n (ws ++ [w])

/-- Big-endian assembly of bytes into 32-bit words. -/
def bytesToWords : List Nat → List Nat
  | b0 :: b1 :: b2 :: b3 :: rest =>
    (b0 * 16777216 + b1 * 65536 + b2 * 256 + b3) :: bytesToWords rest
  | _ => []

/-- Fuel-driven worker for chunksOf; the fuel is the list length, which
suffices for every positive chunk size. -/
def chunksOfAux (n : Nat) : Nat → List α → List (List α)
  | _, [] => []
  | 0, _ :: _ => []
  | fuel + 1, x :: rest =>
    ((x :: rest).take n) :: chunksOfAux n fuel ((x :: rest).drop n)

/-- Consecutive chunks of n elements, the slice(i, i + n) loop of the
batch sender and the block split of SHA-256.  The source loop never
advances for n = 0, a case no caller reaches. -/
def chunksOf (n : Nat) (l : List α) : List (List α) := chunksOfAux n l.length l

/-- SHA-256 message padding: 0x80, zeros to 56 mod 64, then the 64-bit
big-endian bit length. -/
def sha2Pad (msg : List Nat) : List Nat :=
  let len := msg.length
  let zeros := (64 + 56 - (len + 1) % 64) % 64
  let bitLen := 8 * len
  msg ++ [128] ++ List.replicate zeros 0 ++
    [(bitLen >>> 56) % 256, (bitLen >>> 48) % 256, (bitLen >>> 40) % 256, (bitLen >>> 32) % 256,
     (bitLen >>> 24) % 256, (bitLen >>> 16) % 256, (bitLen >>> 8) % 256, bitLen % 256]

/-- Final addition of the working variables into the chaining state. -/
def sha2AddState (s t : Sha2State) : Sha2State :=
  ⟨(s.a + t.a) % 4294967296, (s.b + t.b) % 4294967296,
   (s.c + t.c) % 4294967296, (s.d + t.d) % 4294967296,
   (s.e + t.e) % 4294967296, (s.f + t.f) % 4294967296,
   (s.g + t.g) % 4294967296, (s.h + t.h) % 4294967296⟩

/-- Process one 64-byte block. -/
def sha2Block (s : Sha2State) (block : List Nat) : Sha2State :=
  let ws := sha2Extend 48 (bytesToWords block)
  sha2AddState s ((sha2K.zip ws).foldl sha2Round s)

/-- SHA-256 of a byte list, as the eight final hash words. -/
def sha256Words (msg : List Nat) : Sha2State :=
  (chunksOf 64 (sha2Pad msg)).foldl sha2Block sha2Init

/-- Lowercase hex of one 32-bit word, eight digits. -/
def wordHex8 (w : Nat) : List Char :=
  [hexDigitLower ((w >>> 28) % 16), hexDigitLower ((w >>> 24) % 16),
   hexDigitLower ((w >>> 20) % 16), hexDigitLower ((w >>> 16) % 16),
   hexDigitLower ((w >>> 12) % 16), hexDigitLower ((w >>> 8) % 16),
   hexDigitLower ((w >>> 4) % 16), hexDigitLower (w % 16)]

/-- Node digest('hex'): the lowercase hex characters of the SHA-256
digest of a byte list. -/
def sha256HexChars (msg : List Nat) : List Char :=
  let s := sha256Words msg
  wordHex8 s.a ++ wordHex8 s.b ++ wordHex8 s.c ++ wordHex8 s.d ++
  wordHex8 s.e ++ wordHex8 s.f ++ wordHex8 s.g ++ wordHex8 s.h

/-- One key=value part of the signer's query string: the loop body of
generateCheckMacValue, which skips a pair whose value is undefined,
null or the empty string. -/
def cmvPart (filteredParams : List (String × JSVal)) (k : String) : Option String :=
  match List.lookup k filteredParams with
  | some v =>
    if v != JSVal.undef && v != JSVal.null && v != JSVal.str "" then
      some (k ++ "=" ++ v.render)
    else none
  | none => none

/-- First half of generateCheckMacValue of ecpayService.ts: drop the
CheckMacValue key, sort the remaining keys, and keep key=value parts
whose value is neither undefined, null nor the empty string. -/
def cmvQueryParts (params : List (String × JSVal)) : List String :=
  let filteredParams := params.filter fun kv => kv.1 != "CheckMacValue"
  let sortedKeys := List.insertionSort (· ≤ ·) (filteredParams.map Prod.fst)
  sortedKeys.filterMap (cmvPart filteredParams)

/-- Second half of generateCheckMacValue: join the parts, wrap with
HashKey/HashIV, encodeURIComponent, lowercase, restore %20 to +,
re-encode the characters ! apostrophe ( ) * to uppercase escapes,
SHA-256, uppercase hex. -/
def cmvHash (hashKey hashIV : String) (queryParts : List String) : String :=
  let queryString := String.intercalate "&" queryParts
  let stringToHash := "HashKey=" ++ hashKey ++ "&" ++ queryString ++ "&HashIV=" ++ hashIV
  let encodedString :=
    reEncodeSpecials (replace3 '%' '2' '0' '+'
      ((encodeURIComponentChars stringToHash.data).map asciiLower))
  String.mk ((sha256HexChars (utf8Bytes encodedString)).map asciiUpper)

/-- The CheckMacValue signer of ecpayService.ts (generateCheckMacValue),
the composition of the two stages above. -/
def generateCheckMacValue (hashKey hashIV : String) (params : List (String × JSVal)) : String :=
  cmvHash hashKey hashIV (cmvQueryParts params)

/-- The alternative signer of ecpayService.ts (generateCheckMacValueGit):
sorts all keys (CheckMacValue included), renders every value with a
trailing ampersand per pair, wraps with HashKey/HashIV, then after
encoding restores %20 %2d %5f %2e %21 %2a %28 %29 to their literal
characters in that order (with %20 repeated at the end), SHA-256,
uppercase hex. -/
def generateCheckMacValueGit (hashKey hashIV : String) (data : List (String × JSVal)) : String :=
  let keys := List.insertionSort (· ≤ ·) (data.map Prod.fst)
  let checkValue :=
    String.join (keys.map fun k => k ++ "=" ++ ((List.lookup k data).getD JSVal.undef).render ++ "&")
  let wrapped := "HashKey=" ++ hashKey ++ "&" ++ checkValue ++ "HashIV=" ++ hashIV
  let encoded := (encodeURIComponentChars wrapped.data).map asciiLower
  let r1 := replace3 '%' '2' '0' '+' encoded
  let r2 := replace3 '%' '2' 'd' '-' r1
  let r3 := replace3 '%' '5' 'f' '_' r2
  let r4 := replace3 '%' '2' 'e' '.' r3
  let r5 := replace3 '%' '2' '1' '!' r4
  let r6 := replace3 '%' '2' 'a' '*' r5
  let r7 := replace3 '%' '2' '8' '(' r6
  let r8 := replace3 '%' '2' '9' ')' r7
  let r9 := replace3 '%' '2' '0' '+' r8
  String.mk ((sha256HexChars (utf8Bytes r9)).map asciiUpper)


/-- The shape of an ECPay payment callback (PaymentCallback in
ecpayService.ts); RtnCode is the one numeric field. -/
structure PaymentCallback where
  MerchantID : String
  MerchantTradeNo : String
  TradeNo : String
  RtnCode : Int
  RtnMsg : String
  TradeAmt : String
  PaymentDate : String
  PaymentType : String
  CheckMacValue : String
deriving DecidableEq, Repr

/-- The parameter record a callback object denotes when handed to the
signer, fields in declaration order; the numeric RtnCode renders to its
decimal string under template interpolation. -/
def callbackParams (cb : PaymentCallback) : List (String × JSVal) :=
  [("MerchantID", JSVal.str cb.MerchantID),
   ("MerchantTradeNo", JSVal.str cb.MerchantTradeNo),
   ("TradeNo", JSVal.str cb.TradeNo),
   ("RtnCode", JSVal.str (toString cb.RtnCode)),
   ("RtnMsg", JSVal.str cb.RtnMsg),
   ("TradeAmt", JSVal.str cb.TradeAmt),
   ("PaymentDate", JSVal.str cb.PaymentDate),
   ("PaymentType", JSVal.str cb.PaymentType),
   ("CheckMacValue", JSVal.str cb.CheckMacValue)]

/-- verifyCallback of ecpayService.ts: recompute the CheckMacValue over
the callback fields and compare with the received one; the surrounding
try/catch turns any raise into false, and the computation itself is
total. -/
def verifyCallback (hashKey hashIV : String) (cb : PaymentCallback) : Bool :=
  cb.CheckMacValue == generateCheckMacValue hashKey hashIV (callbackParams cb)

/-- Value of a decimal digit character. -/
def decDigitVal (c : Char) : Option Nat :=
  if 48 ≤ c.toNat ∧ c.toNat ≤ 57 then some (c.toNat - 48) else none

/-- Value of a hexadecimal digit character. -/
def hexDigitVal (c : Char) : Option Nat :=
  if 48 ≤ c.toNat ∧ c.toNat ≤ 57 then some (c.toNat - 48)
  else if 97 ≤ c.toNat ∧ c.toNat ≤ 102 then some (c.toNat - 87)
  else if 65 ≤ c.toNat ∧ c.toNat ≤ 70 then some (c.toNat - 55)
  else none

/-- Accumulate the longest digit prefix. -/
def digitsAcc (base : Nat) (digVal : Char → Option Nat) : List Char → Nat → Nat
  | [], acc => acc
  | c :: rest, acc =>
    match digVal c with
    | some d => digitsAcc base digVal rest (acc * base + d)
    | none => acc

/-- Longest digit prefix of a character list, none when it is empty
(the NaN case of parseInt). -/
def digitsPrefix (base : Nat) (digVal : Char → Option Nat) (l : List Char) : Option Nat :=
  match l with
  | [] => none
  | c :: _ =>
    match digVal c with
    | some _ => some (digitsAcc base digVal l 0)
    | none => none

/-- JS parseInt with no radix argument: trim whitespace, optional sign,
0x/0X prefix selects hexadecimal, otherwise decimal; none models NaN. -/
def parseIntJS (s : String) : Option Int :=
  let l := s.data.dropWhile fun c => [9, 10, 11, 12, 13, 32].contains c.toNat
  let signAndRest : Int × List Char :=
    match l with
    | c :: rest => if c = '-' then (-1, rest) else if c = '+' then (1, rest) else (1, l)
    | [] => (1, [])
  let mag : Option Nat :=
    match signAndRest.2 with
    | x :: y :: rest =>
      if x = '0' ∧ (y = 'x' ∨ y = 'X') then digitsPrefix 16 hexDigitVal rest
      else digitsPrefix 10 decDigitVal signAndRest.2
    | _ => digitsPrefix 10 decDigitVal signAndRest.2
  mag.map fun n => signAndRest.1 * n

/-- The record processCallback returns. -/
structure ProcessCallbackResult where
  isSuccess : Bool
  isValid : Bool
  tradeNo : String
  merchantTradeNo : String
  amount : Option Int
  paymentDate : String
  message : String
deriving DecidableEq, Repr

/-- processCallback of ecpayService.ts: verify, classify RtnCode = 1 as
success, echo the trade fields, parse TradeAmt with parseInt. -/
def processCallback (hashKey hashIV : String) (cb : PaymentCallback) : ProcessCallbackResult :=
  { isValid := verifyCallback hashKey hashIV cb
    isSuccess := cb.RtnCode == 1
    tradeNo := cb.TradeNo
    merchantTradeNo := cb.MerchantTradeNo
    amount := parseIntJS cb.TradeAmt
    paymentDate := cb.PaymentDate
    message := cb.RtnMsg }

/-- One entry of BatchEmailResult.results; toAddr is the field named
to in the source, a name Lean reserves. -/
structure EmailSendOutcome where
  toAddr : String
  success : Bool
  messageId : Option String
  error : Option String
deriving DecidableEq, Repr

/-- Outcome of one sendMail call inside a chunk: the try/catch around
it converts a failure into a failed outcome with the error message, so
a single failure never aborts the chunk or the batch. -/
def sendOutcome (send : String → Except String String) (recipient : String) : EmailSendOutcome :=
  match send recipient with
  | .ok mid => { toAddr := recipient, success := true, messageId := some mid, error := none }
  | .error e => { toAddr := recipient, success := false, messageId := none, error := some e }

/-- Observable step of the batch loop: one awaited chunk, or the timed
suspension between chunks. -/
inductive BatchEvent where
  | chunkSent (outcomes : List EmailSendOutcome)
  | wait (ms : Nat)
deriving DecidableEq, Repr

/-- The chunk loop of EmailService.sendEmail as a trace: chunks are
awaited strictly in order, outcomes inside a chunk keep submission
order, and the delay runs after a chunk exactly when further
recipients remain and delayMs is positive. -/
def runChunks (send : String → Except String String) (delayMs : Nat) :
    List (List String) → List BatchEvent
  | [] => []
  | [c] => [BatchEvent.chunkSent (c.map (sendOutcome send))]
  | c :: c2 :: rest =>
    BatchEvent.chunkSent (c.map (sendOutcome send)) ::
      ((if 0 < delayMs then [BatchEvent.wait delayMs] else []) ++
        runChunks send delayMs (c2 :: rest))

/-- The aggregate EmailService.sendEmail returns. -/
structure BatchEmailResult where
  totalEmails : Nat
  successCount : Nat
  failureCount : Nat
  results : List EmailSendOutcome
deriving DecidableEq, Repr

/-- EmailService.sendEmail over an abstract transport: recipients are
cut into chunks of batchSize, every chunk is mapped through the
transport, the two counters tally the fulfilled outcomes, and the
trace records chunk order and inter-chunk delays. -/
def sendEmail (send : String → Except String String) (recipients : List String)
    (batchSize delayMs : Nat) : BatchEmailResult × List BatchEvent :=
  let outcomes := (chunksOf batchSize recipients).flatMap fun c => c.map (sendOutcome send)
  ({ totalEmails := recipients.length
     successCount := outcomes.countP fun o => o.success
     failureCount := outcomes.countP fun o => !o.success
     results := outcomes },
   runChunks send delayMs (chunksOf batchSize recipients))

/-- One stored row of a period worksheet; cells read back as strings. -/
structure SheetRow where
  member_id : String
  member_email : String
  payment_link : String
  payment_link_sent : String
  unique_payment_link : String
  paid : String
  paid_date : String
deriving DecidableEq, Repr, Inhabited

/-- The partial update payload (PaymentRecord in googleSheetService).
The TS interface declares member_id and member_email as required, but
every caller builds the payload with a cast that omits what it does not
set, and the update functions never read them, so all fields are
optional here; none models the undefined (and, under JS loose
equality, null) leave-unchanged sentinel, and an explicit empty string
is a present value. -/
structure PaymentRecord where
  member_id : Option String
  member_email : Option String
  payment_link : Option String
  payment_link_sent : Option String
  unique_payment_link : Option String
  paid : Option String
  paid_date : Option String
deriving DecidableEq, Repr, Inhabited

/-- The five conditional targetRow.set calls shared by updatePaymentData
and the batch loop body: a field is written exactly when the payload
holds a value for it; member_id and member_email are never written. -/
def applyRecord (row : SheetRow) (d : PaymentRecord) : SheetRow :=
  { row with
    payment_link := d.payment_link.getD row.payment_link
    payment_link_sent := d.payment_link_sent.getD row.payment_link_sent
    unique_payment_link := d.unique_payment_link.getD row.unique_payment_link
    paid := d.paid.getD row.paid
    paid_date := d.paid_date.getD row.paid_date }

/-- rows.filter(r matching memberId)[0] followed by set and save:
update the first matching row; none when no row matches, whereupon the
source dereferences undefined and throws. -/
def updateFirstRow (p : α → Bool) (f : α → α) : List α → Option (List α)
  | [] => none
  | x :: xs => if p x then some (f x :: xs) else (updateFirstRow p f xs).map (x :: ·)

/-- Replace the row list of a named worksheet after a save; worksheet
titles are unique. -/
def setSheetRows (doc : List (String × List SheetRow)) (name : String)
    (rows : List SheetRow) : List (String × List SheetRow) :=
  doc.map fun s => if s.1 == name then (s.1, rows) else s

/-- GoogleSheetsService.updatePaymentData: the pair is the store after
the call and the raised error when one was thrown; a throw happens
only before any save, leaving the store unchanged. -/
def updatePaymentData (doc : List (String × List SheetRow))
    (sheetName memberId : String) (d : PaymentRecord) :
    List (String × List SheetRow) × Option String :=
  match List.lookup sheetName doc with
  | none => (doc, some ("sheet:" ++ sheetName ++ " not found"))
  | some rows =>
    match updateFirstRow (fun r => r.member_id == memberId) (fun r => applyRecord r d) rows with
    | none => (doc, some "TypeError: targetRow is undefined")
    | some rows2 => (setSheetRows doc sheetName rows2, none)

/-- The sequential row loop of updatePaymentDataBatch over the pairs
of memberIds[i] and datas[i]: each iteration updates and saves one
row; a missing member aborts the loop with the store as saved so
far. -/
def batchRowsGo : List SheetRow → List (String × PaymentRecord) → List SheetRow × Option String
  | rows, [] => (rows, none)
  | rows, (mid, d) :: rest =>
    match updateFirstRow (fun r => r.member_id == mid) (fun r => applyRecord r d) rows with
    | none => (rows, some "TypeError: targetRow is undefined")
    | some rows2 => batchRowsGo rows2 rest

/-- GoogleSheetsService.updatePaymentDataBatch: the length guard throws
before the store is read or written; otherwise the zipped pairs run
through the sequential loop and the partial result is saved. -/
def updatePaymentDataBatch (doc : List (String × List SheetRow)) (sheetName : String)
    (memberIds : List String) (datas : List PaymentRecord) :
    List (String × List SheetRow) × Option String :=
  if memberIds.length != datas.length then (doc, some "idLength != dataLength")
  else
    match List.lookup sheetName doc with
    | none => (doc, some ("sheet:" ++ sheetName ++ " not found"))
    | some rows =>
      let r := batchRowsGo rows (memberIds.zip datas)
      (setSheetRows doc sheetName r.1, r.2)

/-- All-success sequential application of update pairs, used to state
which prefix of the batch has reached the store when a later pair
fails. -/
def applySeqRows : List SheetRow → List (String × PaymentRecord) → Option (List SheetRow)
  | rows, [] => some rows
  | rows, (mid, d) :: rest =>
    (updateFirstRow (fun r => r.member_id == mid) (fun r => applyRecord r d) rows).bind
      fun rows2 => applySeqRows rows2 rest

/-- String.prototype.padStart(3, the zero character). -/
def padStart3 (s : List Char) : List Char :=
  List.replicate (3 - s.length) '0' ++ s

/-- generateMerchantTradeNo with its two nondeterministic reads, the
Date.now() value and the random draw below 1000, passed in:
concatenate prefix, timestamp and zero-padded draw, then
substring(0, 20). -/
def generateMerchantTradeNo (pfx : String) (timestampMs randomDraw : Nat) : String :=
  let tradeNo := pfx ++ toString timestampMs ++ String.mk (padStart3 (toString (randomDraw % 1000)).data)
  String.mk (tradeNo.data.take 20)

/-- The partial record ApiHandler.getUniquePaymentLink writes for the
member's row: unique_payment_link receives the freshly generated link
and paid is set to the literal N; the other fields are the undefined
sentinel. -/
def uniqueLinkRecord (u : String) : PaymentRecord :=
  { member_id := none, member_email := none, payment_link := none,
    payment_link_sent := none, unique_payment_link := some u,
    paid := some "N", paid_date := none }

/-- The store effect of ApiHandler.getUniquePaymentLink: one
updatePaymentData call on the current period worksheet with
uniqueLinkRecord. -/
def getUniquePaymentLinkUpdate (doc : List (String × List SheetRow))
    (yyyymm memberId u : String) : List (String × List SheetRow) × Option String :=
  updatePaymentData doc yyyymm memberId (uniqueLinkRecord u)

/-- Association-list lookup is stable under permutation when the keys
are distinct, which a JS object guarantees. -/
theorem lookup_eq_of_perm {l1 l2 : List (String × JSVal)} (h : l1.Perm l2)
    (hn : (l1.map Prod.fst).Nodup) (k : String) :
    List.lookup k l1 = List.lookup k l2 := by
  induction h with
  | nil => rfl
  | cons x h ih =>
    obtain ⟨xk, xv⟩ := x
    have hn' : _ := List.Nodup.of_cons hn
    simp only [List.lookup]
    cases hc : k == xk
    · simpa [hc] using ih hn'
    · simp [hc]
  | swap x y l =>
    obtain ⟨xk, xv⟩ := x
    obtain ⟨yk, yv⟩ := y
    have hne : yk ≠ xk := fun hh =>
      (List.nodup_cons.mp hn).1 (by rw [hh]; exact List.mem_cons_self _ _)
    simp only [List.lookup]
    cases h1 : k == yk <;> cases h2 : k == xk <;> simp only [h1, h2]
    exact absurd ((beq_iff_eq.mp h1).symm.trans (beq_iff_eq.mp h2)) hne
  | trans h1 h2 ih1 ih2 =>
    exact (ih1 hn).trans (ih2 ((h1.map Prod.fst).nodup hn))

/-- Sorting with the total order on strings is a canonical form:
permutable inputs sort to the same list. -/
theorem insertionSort_eq_of_perm {l1 l2 : List String} (h : l1.Perm l2) :
    List.insertionSort (· ≤ ·) l1 = List.insertionSort (· ≤ ·) l2 :=
  List.eq_of_perm_of_sorted
    ((List.perm_insertionSort _ l1).trans (h.trans (List.perm_insertionSort _ l2).symm))
    (List.sorted_insertionSort _ l1) (List.sorted_insertionSort _ l2)

/-- The query parts of the signer depend only on the key/value set of
the parameter record, not on its order. -/
theorem cmvQueryParts_perm {p1 p2 : List (String × JSVal)} (h : p1.Perm p2)
    (hn : (p1.map Prod.fst).Nodup) : cmvQueryParts p1 = cmvQueryParts p2 := by
  have hf := h.filter fun kv => kv.1 != "CheckMacValue"
  have hfn : ((p1.filter fun kv => kv.1 != "CheckMacValue").map Prod.fst).Nodup :=
    ((List.filter_sublist _).map Prod.fst).nodup hn
  simp only [cmvQueryParts]
  rw [insertionSort_eq_of_perm (hf.map Prod.fst)]
  exact List.filterMap_congr fun k _ => by
    unfold cmvPart
    rw [lookup_eq_of_perm hf hfn k]

/-- Uppercase hexadecimal digit test. -/
def isHexUpperDigit (c : Char) : Bool :=
  (decide (48 ≤ c.toNat) && decide (c.toNat ≤ 57)) ||
  (decide (65 ≤ c.toNat) && decide (c.toNat ≤ 70))

/-- Each lowercase hex digit of a nibble uppercases to a character in
the 0-9 A-F range. -/
theorem hexDigit_mod_upper (n : Nat) :
    isHexUpperDigit (asciiUpper (hexDigitLower (n % 16))) = true := by
  have h : n % 16 < 16 := Nat.mod_lt _ (by norm_num)
  set m := n % 16 with hm
  interval_cases m <;> decide

/-- The uppercased hex rendering of a SHA-256 digest has 64
characters. -/
theorem sha256Hex_upper_length (msg : List Nat) :
    ((sha256HexChars msg).map asciiUpper).length = 64 := by
  simp [sha256HexChars, wordHex8]

/-- Every character of the uppercased hex rendering of a SHA-256 digest
is an uppercase hexadecimal digit. -/
theorem sha256Hex_upper_mem (msg : List Nat) :
    ∀ c ∈ (sha256HexChars msg).map asciiUpper, isHexUpperDigit c = true := by
  intro c hc
  simp only [sha256HexChars, List.map_append, List.mem_append] at hc
  rcases hc with ((((((h | h) | h) | h) | h) | h) | h) | h <;>
    · simp only [wordHex8, List.map_cons, List.map_nil, List.mem_cons, List.not_mem_nil,
        or_false] at h
      rcases h with rfl | rfl | rfl | rfl | rfl | rfl | rfl | rfl <;>
        exact hexDigit_mod_upper _

/-- The hash stage always yields a 64-character uppercase hexadecimal
string, whatever the query parts. -/
theorem cmvHash_hex (hashKey hashIV : String) (qp : List String) :
    (cmvHash hashKey hashIV qp).length = 64 ∧
    ∀ c ∈ (cmvHash hashKey hashIV qp).data, isHexUpperDigit c = true := by
  unfold cmvHash
  refine ⟨?_, ?_⟩
  · rw [String.length_mk]
    exact sha256Hex_upper_length _
  · intro c hc
    exact sha256Hex_upper_mem _ c hc

/-- C1: for every secret key and IV, generateCheckMacValue is a pure
function, invariant under permuting the order of the parameter entries
whenever the keys are distinct (as in a JS object), and its output is
always a 64-character uppercase hexadecimal string. -/
theorem generateCheckMacValue_perm_invariant_hex (hashKey hashIV : String)
    (p1 p2 : List (String × JSVal)) (hperm : p1.Perm p2)
    (hnodup : (p1.map Prod.fst).Nodup) :
    generateCheckMacValue hashKey hashIV p1 = generateCheckMacValue hashKey hashIV p2 ∧
    (generateCheckMacValue hashKey hashIV p1).length = 64 ∧
    ∀ c ∈ (generateCheckMacValue hashKey hashIV p1).data, isHexUpperDigit c = true :=
  ⟨congrArg (cmvHash hashKey hashIV) (cmvQueryParts_perm hperm hnodup),
   (cmvHash_hex hashKey hashIV (cmvQueryParts p1)).1,
   (cmvHash_hex hashKey hashIV (cmvQueryParts p1)).2⟩

/-- Witness for C1: a concrete permuted parameter pair signs equally
and the signature has 64 characters. -/
theorem generateCheckMacValue_perm_invariant_hex_witness :
    generateCheckMacValue "testkey" "testiv"
        [("B", JSVal.str "2"), ("A", JSVal.str "1")] =
      generateCheckMacValue "testkey" "testiv"
        [("A", JSVal.str "1"), ("B", JSVal.str "2")] ∧
    (generateCheckMacValue "testkey" "testiv"
        [("B", JSVal.str "2"), ("A", JSVal.str "1")]).length = 64 :=
  ⟨(generateCheckMacValue_perm_invariant_hex "testkey" "testiv" _ _
      (List.Perm.swap _ _ _) (by decide)).1,
   (generateCheckMacValue_perm_invariant_hex "testkey" "testiv" _ _
      (List.Perm.swap _ _ _) (by decide)).2.1⟩

/-- Filtering the CheckMacValue key out of the parameter record does
not change the query parts, because the signer already filters it. -/
theorem cmvQueryParts_filter_cmv (params : List (String × JSVal)) :
    cmvQueryParts (params.filter fun kv => kv.1 != "CheckMacValue") = cmvQueryParts params := by
  simp only [cmvQueryParts, List.filter_filter]
  simp

/-- Signing a record equals signing the record with any CheckMacValue
entry removed, shared by the C2 and C4 developments. -/
theorem generateCheckMacValue_filter_aux (hashKey hashIV : String)
    (params : List (String × JSVal)) :
    generateCheckMacValue hashKey hashIV params =
      generateCheckMacValue hashKey hashIV
        (params.filter fun kv => kv.1 != "CheckMacValue") :=
  (congrArg (cmvHash hashKey hashIV) (cmvQueryParts_filter_cmv params)).symm

/-- C2 (amended): generateCheckMacValue excludes any CheckMacValue
entry from the signed set, so signing a record equals signing the
record with that entry removed.  The git revision does not (see its
counterexample). -/
theorem generateCheckMacValue_drops_checkMacValue (hashKey hashIV : String)
    (params : List (String × JSVal)) :
    generateCheckMacValue hashKey hashIV params =
      generateCheckMacValue hashKey hashIV
        (params.filter fun kv => kv.1 != "CheckMacValue") :=
  generateCheckMacValue_filter_aux hashKey hashIV params

set_option maxHeartbeats 2000000 in
/-- Counterexample to C2 as stated: generateCheckMacValueGit does not
exclude the CheckMacValue entry — removing it from a record changes
the signature. -/
theorem generateCheckMacValueGit_keeps_checkMacValue :
    generateCheckMacValueGit "" "" [("CheckMacValue", JSVal.str "x")] ≠
      generateCheckMacValueGit "" ""
        (([("CheckMacValue", JSVal.str "x")] : List (String × JSVal)).filter
          fun kv => kv.1 != "CheckMacValue") := by decide

set_option maxHeartbeats 2000000 in
/-- C3: the two signer revisions are not equivalent — on the record
with the single pair A maps-to exclamation mark and key k, IV i, the
canonical signer re-encodes the exclamation mark to an uppercase
escape while the git signer restores it to the literal character, so
the two digests differ. -/
theorem generateCheckMacValue_ne_git :
    generateCheckMacValue "k" "i" [("A", JSVal.str "!")] ≠
      generateCheckMacValueGit "k" "i" [("A", JSVal.str "!")] := by decide

/-- C4: callback verification is a total boolean: it accepts exactly
when the received CheckMacValue equals the signature recomputed over
the callback fields with the CheckMacValue entry excluded, and
processCallback echoes the callback fields, parses the amount, and
classifies success exactly when RtnCode is 1. -/
theorem verifyCallback_processCallback_spec (hashKey hashIV : String) (cb : PaymentCallback) :
    (verifyCallback hashKey hashIV cb = true ↔
      cb.CheckMacValue =
        generateCheckMacValue hashKey hashIV
          ((callbackParams cb).filter fun kv => kv.1 != "CheckMacValue")) ∧
    processCallback hashKey hashIV cb =
      { isValid := verifyCallback hashKey hashIV cb
        isSuccess := cb.RtnCode == 1
        tradeNo := cb.TradeNo
        merchantTradeNo := cb.MerchantTradeNo
        amount := parseIntJS cb.TradeAmt
        paymentDate := cb.PaymentDate
        message := cb.RtnMsg } ∧
    ((processCallback hashKey hashIV cb).isSuccess = true ↔ cb.RtnCode = 1) := by
  refine ⟨?_, rfl, ?_⟩
  · unfold verifyCallback
    rw [← generateCheckMacValue_filter_aux]
    exact beq_iff_eq
  · exact beq_iff_eq

/-- Joining the chunks restores the list, for any positive chunk size
and sufficient fuel. -/
theorem chunksOfAux_flatten {α : Type} (n : Nat) (hn : 0 < n) :
    ∀ (fuel : Nat) (l : List α), l.length ≤ fuel →
      (chunksOfAux n fuel l).flatMap id = l := by
  intro fuel
  induction fuel with
  | zero =>
    intro l hl
    cases l with
    | nil => rfl
    | cons x xs => simp at hl
  | succ fuel ih =>
    intro l hl
    cases l with
    | nil => rfl
    | cons x xs =>
      have hd : ((x :: xs).drop n).length ≤ fuel := by
        rw [List.length_drop]
        simp only [List.length_cons] at hl ⊢
        omega
      simp only [chunksOfAux, List.flatMap_cons, ih _ hd, id]
      exact List.take_append_drop n (x :: xs)

/-- Mapping over the chunks in order is mapping over the list. -/
theorem chunksOf_flatMap_map {α β : Type} (f : α → β) (n : Nat) (hn : 0 < n)
    (l : List α) :
    (chunksOf n l).flatMap (fun c => c.map f) = l.map f := by
  conv_rhs => rw [← chunksOfAux_flatten n hn l.length l le_rfl]
  rw [List.map_flatMap]
  rfl

/-- With a positive delay, the trace of the chunk loop is the chunk
events interspersed with waits: one wait after every chunk except the
last. -/
theorem runChunks_intersperse (send : String → Except String String) (delayMs : Nat)
    (hd : 0 < delayMs) (cs : List (List String)) :
    runChunks send delayMs cs =
      List.intersperse (BatchEvent.wait delayMs)
        (cs.map fun c => BatchEvent.chunkSent (c.map (sendOutcome send))) := by
  induction cs with
  | nil => rfl
  | cons c rest ih =>
    cases rest with
    | nil => rfl
    | cons c2 rest2 =>
      simp only [runChunks, if_pos hd, List.map_cons, List.intersperse_cons_cons]
      rw [ih]
      rfl

/-- The success and failure tallies of a batch partition its length. -/
theorem countP_success_add (l : List EmailSendOutcome) :
    l.countP (fun o => o.success) + l.countP (fun o => !o.success) = l.length := by
  induction l with
  | nil => rfl
  | cons x t ih =>
    by_cases hx : x.success = true <;> simp [List.countP_cons, hx, ← ih] <;> omega

/-- C5: the batch sender reports one outcome per recipient in
submission order, the counters partition the total, every transport
failure is a failed outcome rather than an abort, and with a positive
delay the trace is strictly sequential chunks with a wait after each
chunk except the last. -/
theorem sendEmail_batch_spec (send : String → Except String String)
    (recipients : List String) (batchSize delayMs : Nat) (hbs : 0 < batchSize) :
    (sendEmail send recipients batchSize delayMs).1.totalEmails = recipients.length ∧
    (sendEmail send recipients batchSize delayMs).1.successCount +
        (sendEmail send recipients batchSize delayMs).1.failureCount =
      recipients.length ∧
    (sendEmail send recipients batchSize delayMs).1.results =
      recipients.map (sendOutcome send) ∧
    (0 < delayMs →
      (sendEmail send recipients batchSize delayMs).2 =
        List.intersperse (BatchEvent.wait delayMs)
          ((chunksOf batchSize recipients).map fun c =>
            BatchEvent.chunkSent (c.map (sendOutcome send)))) := by
  have hres : (sendEmail send recipients batchSize delayMs).1.results =
      recipients.map (sendOutcome send) :=
    chunksOf_flatMap_map (sendOutcome send) batchSize hbs recipients
  refine ⟨rfl, ?_, hres, fun hd => runChunks_intersperse send delayMs hd _⟩
  show ((chunksOf batchSize recipients).flatMap fun c => c.map (sendOutcome send)).countP _ +
      ((chunksOf batchSize recipients).flatMap fun c => c.map (sendOutcome send)).countP _ =
    recipients.length
  rw [chunksOf_flatMap_map (sendOutcome send) batchSize hbs recipients]
  rw [countP_success_add]
  exact List.length_map _ _

/-- Transport for the C5 witness: it fails for the third and the sixth
recipient and succeeds elsewhere. -/
def demoSend (r : String) : Except String String :=
  if r == "r2" || r == "r5" then Except.error "boom" else Except.ok "mid"

/-- Recipient list for the C5 witness. -/
def demoRecipients : List String := ["r0", "r1", "r2", "r3", "r4", "r5", "r6"]

/-- Witness for C5: seven recipients in chunks of three with two
failing sends give outcomes in submission order with five successes
and two failures. -/
theorem sendEmail_batch_spec_witness :
    (sendEmail demoSend demoRecipients 3 0).1.results =
        demoRecipients.map (sendOutcome demoSend) ∧
    (sendEmail demoSend demoRecipients 3 0).1.successCount = 5 ∧
    (sendEmail demoSend demoRecipients 3 0).1.failureCount = 2 :=
  ⟨(sendEmail_batch_spec demoSend demoRecipients 3 0 (by decide)).2.2.1,
   by decide, by decide⟩

/-- A successful first-match update rewrites exactly one position: the
first one satisfying the predicate; every earlier row fails it and
every other row is kept by List.set. -/
theorem updateFirstRow_some {α : Type} [Inhabited α] (p : α → Bool) (f : α → α) :
    ∀ (l l2 : List α), updateFirstRow p f l = some l2 →
      ∃ i, i < l.length ∧ (∀ j, j < i → p (l.getD j default) = false) ∧
        p (l.getD i default) = true ∧ l2 = l.set i (f (l.getD i default)) := by
  intro l
  induction l with
  | nil => intro l2 h; simp [updateFirstRow] at h
  | cons x xs ih =>
    intro l2 h
    simp only [updateFirstRow] at h
    by_cases hx : p x = true
    · rw [if_pos hx] at h
      refine ⟨0, by simp, fun j hj => absurd hj (Nat.not_lt_zero j), hx, ?_⟩
      simpa using h.symm
    · rw [if_neg hx] at h
      obtain ⟨l2', hl2', rfl⟩ := Option.map_eq_some'.mp h
      obtain ⟨i, hi, hpre, hpi, rfl⟩ := ih l2' hl2'
      refine ⟨i + 1, by simpa using Nat.succ_lt_succ hi, ?_, ?_, ?_⟩
      · intro j hj
        cases j with
        | zero => simpa using Bool.not_eq_true _ ▸ hx
        | succ j' => simpa [List.getD_cons_succ] using hpre j' (Nat.lt_of_succ_lt_succ hj)
      · simpa [List.getD_cons_succ] using hpi
      · rw [List.set_cons_succ, List.getD_cons_succ]

/-- When every pair applies, the batch loop finishes with no error and
the fully updated rows. -/
theorem batchRowsGo_applySeq :
    ∀ (pairs : List (String × PaymentRecord)) (rows final : List SheetRow),
      applySeqRows rows pairs = some final → batchRowsGo rows pairs = (final, none) := by
  intro pairs
  induction pairs with
  | nil =>
    intro rows final h
    simp only [applySeqRows, Option.some.injEq] at h
    simp [batchRowsGo, h]
  | cons p rest ih =>
    intro rows final h
    obtain ⟨mid, d⟩ := p
    simp only [applySeqRows] at h
    cases hu : updateFirstRow (fun r => r.member_id == mid) (fun r => applyRecord r d) rows with
    | none => rw [hu] at h; simp at h
    | some rows2 =>
      rw [hu] at h
      simp only [Option.some_bind] at h
      simp only [batchRowsGo, hu]
      exact ih rows2 final h

/-- When the pair at position k is the first to fail, the batch loop
stops there: the store holds exactly the first k updates and the error
of the undefined row dereference. -/
theorem batchRowsGo_partial :
    ∀ (pairs : List (String × PaymentRecord)) (rows rowsK : List SheetRow) (k : Nat),
      k < pairs.length →
      applySeqRows rows (pairs.take k) = some rowsK →
      updateFirstRow (fun r => r.member_id == (pairs.getD k default).1)
        (fun r => applyRecord r (pairs.getD k default).2) rowsK = none →
      batchRowsGo rows pairs = (rowsK, some "TypeError: targetRow is undefined") := by
  intro pairs
  induction pairs with
  | nil => intro rows rowsK k hk; exact absurd hk (by simp)
  | cons p rest ih =>
    intro rows rowsK k hk htake hfail
    obtain ⟨mid, d⟩ := p
    cases k with
    | zero =>
      simp only [List.take_zero, applySeqRows, Option.some.injEq] at htake
      simp only [List.getD_cons_zero] at hfail
      simp only [batchRowsGo, hfail, htake]
    | succ k' =>
      rw [List.take_succ_cons] at htake
      simp only [applySeqRows] at htake
      cases hu : updateFirstRow (fun r => r.member_id == mid) (fun r => applyRecord r d) rows with
      | none => rw [hu] at htake; simp at htake
      | some rows2 =>
        rw [hu] at htake
        simp only [Option.some_bind] at htake
        simp only [batchRowsGo, hu]
        exact ih rows2 rowsK k' (by simpa using Nat.lt_of_succ_lt_succ hk) htake
          (by simpa [List.getD_cons_succ] using hfail)

/-- C6: a batch update with mismatched lengths fails with the argument
error before the store is touched; with matched lengths it runs the
sequential per-row loop, which applies pairs positionally one save at
a time, completes cleanly when every pair matches, and on a failure at
position k leaves exactly the first k updates in place. -/
theorem updatePaymentDataBatch_spec (doc : List (String × List SheetRow))
    (sheetName : String) (memberIds : List String) (datas : List PaymentRecord) :
    (memberIds.length ≠ datas.length →
      updatePaymentDataBatch doc sheetName memberIds datas =
        (doc, some "idLength != dataLength")) ∧
    (memberIds.length = datas.length → List.lookup sheetName doc = none →
      updatePaymentDataBatch doc sheetName memberIds datas =
        (doc, some ("sheet:" ++ sheetName ++ " not found"))) ∧
    (∀ rows, memberIds.length = datas.length → List.lookup sheetName doc = some rows →
      updatePaymentDataBatch doc sheetName memberIds datas =
        (setSheetRows doc sheetName (batchRowsGo rows (memberIds.zip datas)).1,
         (batchRowsGo rows (memberIds.zip datas)).2)) ∧
    (∀ rows pairs final, applySeqRows rows pairs = some final →
      batchRowsGo rows pairs = (final, none)) ∧
    (∀ rows rowsK pairs k, k < pairs.length →
      applySeqRows rows (pairs.take k) = some rowsK →
      updateFirstRow (fun r => r.member_id == (pairs.getD k default).1)
        (fun r => applyRecord r (pairs.getD k default).2) rowsK = none →
      batchRowsGo rows pairs = (rowsK, some "TypeError: targetRow is undefined")) := by
  refine ⟨?_, ?_, ?_,
    fun rows pairs final h => batchRowsGo_applySeq pairs rows final h,
    fun rows rowsK pairs k hk ht hf => batchRowsGo_partial pairs rows rowsK k hk ht hf⟩
  · intro h
    have hb : (memberIds.length != datas.length) = true := by simpa [bne_iff_ne] using h
    simp [updatePaymentDataBatch, hb]
  · intro h hnone
    have hb : (memberIds.length != datas.length) = false := by simp [h]
    simp [updatePaymentDataBatch, hb, hnone]
  · intro rows h hsome
    have hb : (memberIds.length != datas.length) = false := by simp [h]
    simp [updatePaymentDataBatch, hb, hsome]

/-- First demo row of the witness store. -/
def demoRowM1 : SheetRow :=
  { member_id := "m1", member_email := "a@x", payment_link := "L1",
    payment_link_sent := "N", unique_payment_link := "", paid := "", paid_date := "" }

/-- Second demo row of the witness store; already paid. -/
def demoRowM2 : SheetRow :=
  { member_id := "m2", member_email := "b@x", payment_link := "L2",
    payment_link_sent := "N", unique_payment_link := "", paid := "Y",
    paid_date := "2025-09-01" }

/-- Witness store: one period worksheet holding the two demo rows. -/
def demoDoc : List (String × List SheetRow) := [("202510", [demoRowM1, demoRowM2])]

/-- Payload writing an explicit blank into paid and nothing else. -/
def demoBlankPaid : PaymentRecord :=
  { member_id := none, member_email := none, payment_link := none,
    payment_link_sent := none, unique_payment_link := none,
    paid := some "", paid_date := none }

/-- Witness for C6: three member ids against two payloads fail with the
argument error and leave the store untouched. -/
theorem updatePaymentDataBatch_spec_witness :
    updatePaymentDataBatch demoDoc "202510" ["m1", "m2", "m3"]
        [demoBlankPaid, demoBlankPaid] =
      (demoDoc, some "idLength != dataLength") :=
  (updatePaymentDataBatch_spec demoDoc "202510" ["m1", "m2", "m3"]
    [demoBlankPaid, demoBlankPaid]).1 (by decide)

/-- C7: the single-row update fails, store unchanged, when the period
worksheet is absent or no row matches; on success it rewrites exactly
the first matching row through applyRecord, which writes precisely the
fields present in the payload — none (undefined or null in JS) leaves
a field unchanged while an explicit blank string overwrites — and
never touches member_id or member_email, and List.set keeps every
other row. -/
theorem updatePaymentData_spec (doc : List (String × List SheetRow))
    (sheetName memberId : String) (d : PaymentRecord) :
    (List.lookup sheetName doc = none →
      updatePaymentData doc sheetName memberId d =
        (doc, some ("sheet:" ++ sheetName ++ " not found"))) ∧
    (∀ rows, List.lookup sheetName doc = some rows →
      updateFirstRow (fun r => r.member_id == memberId) (fun r => applyRecord r d) rows = none →
      updatePaymentData doc sheetName memberId d =
        (doc, some "TypeError: targetRow is undefined")) ∧
    (∀ rows rows2, List.lookup sheetName doc = some rows →
      updateFirstRow (fun r => r.member_id == memberId) (fun r => applyRecord r d) rows =
        some rows2 →
      updatePaymentData doc sheetName memberId d = (setSheetRows doc sheetName rows2, none)) ∧
    (∀ rows rows2,
      updateFirstRow (fun r => r.member_id == memberId) (fun r => applyRecord r d) rows =
        some rows2 →
      ∃ i, i < rows.length ∧
        (∀ j, j < i → ((rows.getD j default).member_id == memberId) = false) ∧
        ((rows.getD i default).member_id == memberId) = true ∧
        rows2 = rows.set i (applyRecord (rows.getD i default) d)) ∧
    (∀ row, (applyRecord row d).member_id = row.member_id ∧
      (applyRecord row d).member_email = row.member_email ∧
      (applyRecord row d).payment_link = d.payment_link.getD row.payment_link ∧
      (applyRecord row d).payment_link_sent = d.payment_link_sent.getD row.payment_link_sent ∧
      (applyRecord row d).unique_payment_link =
        d.unique_payment_link.getD row.unique_payment_link ∧
      (applyRecord row d).paid = d.paid.getD row.paid ∧
      (applyRecord row d).paid_date = d.paid_date.getD row.paid_date) := by
  refine ⟨?_, ?_, ?_,
    fun rows rows2 h => updateFirstRow_some _ _ rows rows2 h,
    fun row => ⟨rfl, rfl, rfl, rfl, rfl, rfl, rfl⟩⟩
  · intro hnone; simp [updatePaymentData, hnone]
  · intro rows hsome hu; simp [updatePaymentData, hsome, hu]
  · intro rows rows2 hsome hu; simp [updatePaymentData, hsome, hu]

/-- Witness for C7: writing an explicit blank paid into the second row
succeeds and stores exactly that row rewritten. -/
theorem updatePaymentData_spec_witness :
    updatePaymentData demoDoc "202510" "m2" demoBlankPaid =
      (setSheetRows demoDoc "202510" [demoRowM1, applyRecord demoRowM2 demoBlankPaid], none) :=
  (updatePaymentData_spec demoDoc "202510" "m2" demoBlankPaid).2.2.1
    [demoRowM1, demoRowM2] [demoRowM1, applyRecord demoRowM2 demoBlankPaid]
    (by decide) (by decide)

/-- C8: the generated merchant trade number never exceeds 20
characters; a candidate of exactly 20 characters is returned
unmodified, and a longer candidate is cut to its first 20
characters. -/
theorem generateMerchantTradeNo_spec (pfx : String) (ts rnd : Nat) :
    (generateMerchantTradeNo pfx ts rnd).length ≤ 20 ∧
    ((pfx ++ toString ts ++ String.mk (padStart3 (toString (rnd % 1000)).data)).length = 20 →
      generateMerchantTradeNo pfx ts rnd =
        pfx ++ toString ts ++ String.mk (padStart3 (toString (rnd % 1000)).data)) ∧
    (20 < (pfx ++ toString ts ++ String.mk (padStart3 (toString (rnd % 1000)).data)).length →
      (generateMerchantTradeNo pfx ts rnd).length = 20 ∧
      (generateMerchantTradeNo pfx ts rnd).data =
        (pfx ++ toString ts ++ String.mk (padStart3 (toString (rnd % 1000)).data)).data.take 20) := by
  refine ⟨?_, ?_, fun hlong => ⟨?_, rfl⟩⟩
  · show (String.mk _).length ≤ 20
    rw [String.length_mk, List.length_take]
    exact min_le_left _ _
  · intro h20
    show String.mk (List.take 20 _) = _
    rw [List.take_of_length_le (by rw [← String.length_mk]; exact le_of_eq h20)]
  · show (String.mk _).length = 20
    rw [String.length_mk, List.length_take]
    have : 20 ≤ (pfx ++ toString ts ++ String.mk (padStart3 (toString (rnd % 1000)).data)).data.length := by
      rw [← String.length_mk]
      exact le_of_lt hlong
    omega

/-- Witness for C8: a 4-character prefix with a 13-digit timestamp and
the padded draw makes exactly 20 characters and is kept whole; a
9-character prefix makes 25 and is cut to 20. -/
theorem generateMerchantTradeNo_spec_witness :
    generateMerchantTradeNo "ABCD" 1234567890123 3 = "ABCD1234567890123003" ∧
    (generateMerchantTradeNo "ABCDEFGHI" 1234567890123 3).length = 20 :=
  ⟨((generateMerchantTradeNo_spec "ABCD" 1234567890123 3).2.1 (by decide)).trans (by decide),
   ((generateMerchantTradeNo_spec "ABCDEFGHI" 1234567890123 3).2.2 (by decide)).1⟩

/-- Counterexample to C9 as stated: unique-link issuance also
overwrites paid — the second demo row is paid Y before the call and
paid N after it. -/
theorem getUniquePaymentLink_changes_paid :
    (List.lookup "202510" demoDoc).map (fun rows => rows.map fun r => r.paid) =
        some ["", "Y"] ∧
    (List.lookup "202510" (getUniquePaymentLinkUpdate demoDoc "202510" "m2" "u1").1).map
        (fun rows => rows.map fun r => r.paid) = some ["", "N"] := by decide

/-- C9 (amended): unique-link issuance rewrites exactly the member's
row, setting unique_payment_link to the fresh link and paid to N,
while payment_link, payment_link_sent, paid_date and the identity
fields keep their previous values and every other row is untouched. -/
theorem getUniquePaymentLinkUpdate_frame (doc : List (String × List SheetRow))
    (ym mid u : String) (rows rows2 : List SheetRow)
    (hl : List.lookup ym doc = some rows)
    (hu : updateFirstRow (fun r => r.member_id == mid)
        (fun r => applyRecord r (uniqueLinkRecord u)) rows = some rows2) :
    getUniquePaymentLinkUpdate doc ym mid u = (setSheetRows doc ym rows2, none) ∧
    (∀ row, applyRecord row (uniqueLinkRecord u) =
      { row with unique_payment_link := u, paid := "N" }) ∧
    ∃ i, i < rows.length ∧
      rows2 = rows.set i
        { rows.getD i default with unique_payment_link := u, paid := "N" } := by
  refine ⟨?_, fun row => rfl, ?_⟩
  · simp [getUniquePaymentLinkUpdate, updatePaymentData, hl, hu]
  · obtain ⟨i, hi, _, _, hset⟩ := updateFirstRow_some _ _ rows rows2 hu
    exact ⟨i, hi, hset⟩

/-- Witness for C9 (amended) on the demo store. -/
theorem getUniquePaymentLinkUpdate_frame_witness :
    getUniquePaymentLinkUpdate demoDoc "202510" "m2" "u1" =
      (setSheetRows demoDoc "202510"
        [demoRowM1, applyRecord demoRowM2 (uniqueLinkRecord "u1")], none) :=
  (getUniquePaymentLinkUpdate_frame demoDoc "202510" "m2" "u1"
    [demoRowM1, demoRowM2] [demoRowM1, applyRecord demoRowM2 (uniqueLinkRecord "u1")]
    (by decide) (by decide)).1

/-- A key outside the association list looks up to none. -/
theorem lookup_none_of_not_mem (k : String) :
    ∀ l : List (String × JSVal), k ∉ l.map Prod.fst → List.lookup k l = none := by
  intro l
  induction l with
  | nil => intro _; rfl
  | cons p t ih =>
    obtain ⟨pk, pv⟩ := p
    intro h
    simp only [List.map_cons, List.mem_cons] at h
    push_neg at h
    simp only [List.lookup]
    rw [show (k == pk) = false from beq_eq_false_iff_ne.mpr h.1]
    exact ih h.2

/-- Lookup through an appended final pair: the original list wins, and
the new key answers only when nothing earlier matched. -/
theorem lookup_append_single (x k : String) (v : JSVal) (l : List (String × JSVal)) :
    List.lookup x (l ++ [(k, v)]) =
      match List.lookup x l with
      | some w => some w
      | none => if x == k then some v else none := by
  induction l with
  | nil =>
    simp only [List.nil_append, List.lookup]
    cases hc : x == k <;> simp [hc]
  | cons p t ih =>
    obtain ⟨pk, pv⟩ := p
    simp only [List.cons_append, List.lookup]
    cases hc : x == pk <;> simp [ih]

/-- A key the part function drops can be erased from the key list
without changing the collected parts. -/
theorem filterMap_erase_none {β : Type} (f : String → Option β) (a : String)
    (hf : f a = none) : ∀ l : List String, l.filterMap f = (l.erase a).filterMap f := by
  intro l
  induction l with
  | nil => rfl
  | cons x t ih =>
    by_cases hx : x = a
    · subst hx
      rw [List.erase_cons_head, List.filterMap_cons, hf]
    · rw [List.erase_cons_tail (fun hb => hx (beq_iff_eq.mp hb)),
        List.filterMap_cons, List.filterMap_cons, ih]

/-- Erasing the appended key from the sorted keys recovers the sort of
the original keys. -/
theorem insertionSort_append_erase (keys : List String) (k : String) :
    (List.insertionSort (· ≤ ·) (keys ++ [k])).erase k =
      List.insertionSort (· ≤ ·) keys := by
  have p1 := List.Perm.erase k (List.perm_insertionSort (· ≤ ·) (keys ++ [k]))
  have p2 := List.Perm.erase k (List.perm_append_singleton k keys)
  rw [List.erase_cons_head] at p2
  exact @List.eq_of_perm_of_sorted String (· ≤ ·) inferInstance _ _
    ((p1.trans p2).trans (List.perm_insertionSort (· ≤ ·) keys).symm)
    (List.Pairwise.sublist (List.erase_sublist k _) (List.sorted_insertionSort _ _))
    (List.sorted_insertionSort _ _)

/-- Appending a fresh key whose value is undefined, null or blank does
not change the signer's query parts. -/
theorem cmvQueryParts_append_blank (params : List (String × JSVal)) (k : String) (v : JSVal)
    (hk : k ∉ params.map Prod.fst)
    (hv : v = JSVal.undef ∨ v = JSVal.null ∨ v = JSVal.str "") :
    cmvQueryParts (params ++ [(k, v)]) = cmvQueryParts params := by
  by_cases hcmv : k = "CheckMacValue"
  · subst hcmv
    have h0 : (params ++ [("CheckMacValue", v)]).filter (fun kv => kv.1 != "CheckMacValue") =
        params.filter fun kv => kv.1 != "CheckMacValue" := by
      rw [List.filter_append]
      simp
    simp only [cmvQueryParts, h0]
  · have hfil : (params ++ [(k, v)]).filter (fun kv => kv.1 != "CheckMacValue") =
        (params.filter fun kv => kv.1 != "CheckMacValue") ++ [(k, v)] := by
      have hkb : (k != "CheckMacValue") = true := by simpa [bne_iff_ne] using hcmv
      rw [List.filter_append]
      simp [List.filter, hkb]
    have hkF : k ∉ (params.filter fun kv => kv.1 != "CheckMacValue").map Prod.fst := by
      intro hmem
      obtain ⟨p, hp, hpk⟩ := List.mem_map.mp hmem
      exact hk (List.mem_map.mpr ⟨p, List.mem_of_mem_filter hp, hpk⟩)
    have hnone : cmvPart ((params.filter fun kv => kv.1 != "CheckMacValue") ++ [(k, v)]) k =
        none := by
      unfold cmvPart
      rw [lookup_append_single, lookup_none_of_not_mem k _ hkF]
      rcases hv with rfl | rfl | rfl <;> simp
    have hlook : ∀ x ∈ List.insertionSort (· ≤ ·)
        ((params.filter fun kv => kv.1 != "CheckMacValue").map Prod.fst),
        cmvPart ((params.filter fun kv => kv.1 != "CheckMacValue") ++ [(k, v)]) x =
          cmvPart (params.filter fun kv => kv.1 != "CheckMacValue") x := by
      intro x hx
      have hxk : x ≠ k := by
        intro hh
        subst hh
        exact hkF ((List.perm_insertionSort _ _).mem_iff.mp hx)
      unfold cmvPart
      rw [lookup_append_single]
      cases hl : List.lookup x (params.filter fun kv => kv.1 != "CheckMacValue") <;>
        simp [hl, beq_eq_false_iff_ne.mpr hxk]
    simp only [cmvQueryParts, hfil]
    rw [show ((params.filter fun kv => kv.1 != "CheckMacValue") ++ [(k, v)]).map Prod.fst =
        (params.filter fun kv => kv.1 != "CheckMacValue").map Prod.fst ++ [k] from by simp]
    rw [filterMap_erase_none _ k hnone]
    rw [insertionSort_append_erase]
    exact List.filterMap_congr hlook

/-- C10: the signer omits parameters whose value is undefined, null or
the empty string, so adding a fresh key with an empty-string value
leaves the signature unchanged. -/
theorem generateCheckMacValue_ignores_blank (hashKey hashIV : String)
    (params : List (String × JSVal)) (k : String) (v : JSVal)
    (hk : k ∉ params.map Prod.fst)
    (hv : v = JSVal.undef ∨ v = JSVal.null ∨ v = JSVal.str "") :
    generateCheckMacValue hashKey hashIV (params ++ [(k, v)]) =
      generateCheckMacValue hashKey hashIV params :=
  congrArg (cmvHash hashKey hashIV) (cmvQueryParts_append_blank params k v hk hv)

/-- Witness for C10: adding the fresh key B with an empty-string value
to a one-entry record leaves the signature unchanged. -/
theorem generateCheckMacValue_ignores_blank_witness :
    generateCheckMacValue "k" "i" ([("A", JSVal.str "1")] ++ [("B", JSVal.str "")]) =
      generateCheckMacValue "k" "i" [("A", JSVal.str "1")] :=
  generateCheckMacValue_ignores_blank "k" "i" [("A", JSVal.str "1")] "B" (JSVal.str "")
    (by decide) (Or.inr (Or.inr rfl))
